import Mathlib

/-!
# heads-up: the polling-and-forward loop of `main.go`

A shallow embedding of `src/main.go`.  The program dials a Tile38 store,
registers a geofence with one `NEARBY` command and then, on every tick of a
ticker, fetches the ISS position over HTTP and forwards it with a `SET`
command.

Everything outside the process is an explicit input: the result of the dial,
the store's reply to each command and what the HTTP round trip of each tick
produced.  `main` maps a configuration and these outcomes to the status the
process is in after the given ticks, the ordered list of network actions it
performed and the lines it printed.

Conventions.
* Go strings are Lean `String`s.  The separators used by the program (`","`
  and `":"`) are single ASCII bytes, so splitting by characters and splitting
  by bytes agree.
* `int` is 64 bits wide (amd64 / arm64); `time.Duration` is `int64` and its
  arithmetic wraps around.
* The standard library and redigo calls are modelled by their documented
  behaviour: `strings.Contains`, `strings.Split`, `time.NewTicker` (panics on
  a non-positive duration) and `encoding/json` decoding into the tagged
  structs (keys are matched to a field by exact name first and by
  case-insensitive folding otherwise; members are stored in document order;
  `null` leaves a string or integer untouched and clears a pointer; a value of
  the wrong JSON type is an error).
-/

set_option autoImplicit false

namespace HeadsUp

/-! ## Strings -/

/-- Does `s` begin with `p`? -/
def startsWith : List Char → List Char → Bool
  | _, [] => true
  | [], _ :: _ => false
  | c :: cs, p :: ps => c == p && startsWith cs ps

/-- Does `sub` occur somewhere in the character list? -/
def containsChars (sub : List Char) : List Char → Bool
  | [] => startsWith [] sub
  | c :: cs => startsWith (c :: cs) sub || containsChars sub cs

/-- Go `strings.Contains(s, substr)`. -/
def stringsContains (s substr : String) : Bool :=
  containsChars substr.data s.data

/-- Splitting at the non-overlapping occurrences of a non-empty separator, left
to right.  The counter is the number of characters of an already matched
separator that are still to be skipped. -/
def splitChars (sep : List Char) : Nat → List Char → List (List Char)
  | _, [] => [[]]
  | skip + 1, _ :: cs => splitChars sep skip cs
  | 0, c :: cs =>
    if startsWith (c :: cs) sep then [] :: splitChars sep (sep.length - 1) cs
    else
      match splitChars sep 0 cs with
      | [] => [[c]]
      | h :: t => (c :: h) :: t

/-- Go `strings.Split(s, sep)`: with an empty separator the string is exploded
into its characters, otherwise it is cut at every occurrence of `sep`. -/
def stringsSplit (s sep : String) : List String :=
  if sep.data = [] then s.data.map fun c => String.mk [c]
  else (splitChars sep.data 0 s.data).map String.mk

/-! ## Machine integers -/

/-- The value of an integer after wrapping to a signed 64-bit word. -/
def wrapInt64 (z : Int) : Int :=
  (z + 2 ^ 63) % 2 ^ 64 - 2 ^ 63

/-- The constant `time.Second`, in nanoseconds. -/
def timeSecond : Int := 1000000000

/-- The argument of `time.NewTicker` at line 139:
`time.Second * time.Duration(intervalFlag)`, an `int64` product. -/
def tickerDuration (intervalFlag : Int) : Int :=
  wrapInt64 (timeSecond * wrapInt64 intervalFlag)

/-! ## JSON documents and decoding -/

/-- A parsed JSON value.  A number keeps what integer decoding needs: the
integer it denotes when its literal is an integer literal, `none` when the
literal has a fraction or an exponent.  The members of an object are kept in
document order. -/
inductive JSON where
  | null : JSON
  | bool (b : Bool) : JSON
  | num (i : Option Int) : JSON
  | str (s : String) : JSON
  | arr (xs : List JSON) : JSON
  | obj (ms : List (String × JSON)) : JSON

/-- The source struct `issPosition`: the field `Latitude` carries the tag
`json:"longitude"` and the field `Longitude` the tag `json:"latitude"`. -/
structure issPosition where
  Latitude : String
  Longitude : String
  deriving DecidableEq

/-- The source struct `response`; the pointer field is an `Option`. -/
structure response where
  ISSPosition : Option issPosition
  Message : String
  Timestamp : Int
  deriving DecidableEq

/-- Case folding of one character of an object key.  ASCII lower case goes to
upper case; the two non-ASCII characters whose fold orbit contains an ASCII
letter (long s and the Kelvin sign) go to that letter.  Every other character
folds inside the non-ASCII range and never meets a character of a tag. -/
def foldRune (c : Char) : Char :=
  if 97 ≤ c.toNat ∧ c.toNat ≤ 122 then Char.ofNat (c.toNat - 32)
  else if c.toNat = 0x17F then 'S'
  else if c.toNat = 0x212A then 'K'
  else c

/-- The folded form of a key. -/
def foldName (s : String) : List Char :=
  s.data.map foldRune

/-- The fields of `issPosition`, in declaration order. -/
inductive PosField where
  | Latitude
  | Longitude
  deriving DecidableEq

/-- The fields of `response`, in declaration order. -/
inductive RespField where
  | ISSPosition
  | Message
  | Timestamp
  deriving DecidableEq

/-- The field of `issPosition` an object key is stored into: the field whose
tag is the key, otherwise the first field whose tag equals the key after
folding, otherwise none. -/
def posFieldOf (key : String) : Option PosField :=
  if key = "longitude" then some .Latitude
  else if key = "latitude" then some .Longitude
  else if foldName key = foldName "longitude" then some .Latitude
  else if foldName key = foldName "latitude" then some .Longitude
  else none

/-- The field of `response` an object key is stored into. -/
def respFieldOf (key : String) : Option RespField :=
  if key = "iss_position" then some .ISSPosition
  else if key = "message" then some .Message
  else if key = "timestamp" then some .Timestamp
  else if foldName key = foldName "iss_position" then some .ISSPosition
  else if foldName key = foldName "message" then some .Message
  else if foldName key = foldName "timestamp" then some .Timestamp
  else none

/-- Does an object key select the field tagged `tag`?  It does when it is the
tag itself or equals it after case folding. -/
def keyMatches (tag key : String) : Bool :=
  key == tag || foldName key == foldName tag

/-- Storing a JSON value into a Go `string` that currently holds `cur`. -/
def decodeString (cur : String) : JSON → Except String String
  | .null => .ok cur
  | .str s => .ok s
  | _ => .error "json: cannot unmarshal value into Go value of type string"

/-- Storing a JSON value into a Go `int64` that currently holds `cur`. -/
def decodeInt64 (cur : Int) : JSON → Except String Int
  | .null => .ok cur
  | .num (some i) =>
    if -(2 ^ 63) ≤ i ∧ i < 2 ^ 63 then .ok i
    else .error "json: cannot unmarshal number into Go value of type int64"
  | _ => .error "json: cannot unmarshal value into Go value of type int64"

/-- Storing the members of a JSON object into an `issPosition`, one after the
other. -/
def decodePosMembers (p : issPosition) : List (String × JSON) → Except String issPosition
  | [] => .ok p
  | (key, v) :: ms =>
    match posFieldOf key with
    | some .Latitude =>
      match decodeString p.Latitude v with
      | .ok s => decodePosMembers { p with Latitude := s } ms
      | .error e => .error e
    | some .Longitude =>
      match decodeString p.Longitude v with
      | .ok s => decodePosMembers { p with Longitude := s } ms
      | .error e => .error e
    | none => decodePosMembers p ms

/-- Reading one field of an `issPosition`. -/
def posGet : PosField → issPosition → String
  | .Latitude, p => p.Latitude
  | .Longitude, p => p.Longitude

/-- Storing a JSON value into a `*issPosition` that currently holds `cur`:
`null` clears the pointer, an object is stored into the pointed-to struct
(allocated when the pointer is nil). -/
def decodePosPtr (cur : Option issPosition) : JSON → Except String (Option issPosition)
  | .null => .ok none
  | .obj ms =>
    match decodePosMembers (cur.getD ⟨"", ""⟩) ms with
    | .ok p => .ok (some p)
    | .error e => .error e
  | _ => .error "json: cannot unmarshal value into Go value of type main.issPosition"

/-- Storing the members of a JSON object into a `response`. -/
def decodeRespMembers (r : response) : List (String × JSON) → Except String response
  | [] => .ok r
  | (key, v) :: ms =>
    match respFieldOf key with
    | some .ISSPosition =>
      match decodePosPtr r.ISSPosition v with
      | .ok p => decodeRespMembers { r with ISSPosition := p } ms
      | .error e => .error e
    | some .Message =>
      match decodeString r.Message v with
      | .ok s => decodeRespMembers { r with Message := s } ms
      | .error e => .error e
    | some .Timestamp =>
      match decodeInt64 r.Timestamp v with
      | .ok i => decodeRespMembers { r with Timestamp := i } ms
      | .error e => .error e
    | none => decodeRespMembers r ms

/-- Decoding a document into `var r response` (line 50). -/
def decodeResponse : JSON → Except String response
  | .null => .ok ⟨none, "", 0⟩
  | .obj ms => decodeRespMembers ⟨none, "", 0⟩ ms
  | _ => .error "json: cannot unmarshal value into Go value of type main.response"

/-! ## The fetch -/

/-- The source constant `positionURL`. -/
def positionURL : String := "http://api.open-notify.org/iss-now.json"

/-- What the outside world does to one call of `position`: building the
request fails, the round trip fails, or a response arrives whose body is
either not a JSON value or the given document. -/
inductive HttpOutcome where
  | requestError (err : String) : HttpOutcome
  | doError (err : String) : HttpOutcome
  | body (doc : Except String JSON) : HttpOutcome

/-- The source function `position`: the pointer it returns (`none` is nil) or
the error. -/
def position : HttpOutcome → Except String (Option issPosition)
  | .requestError err => .error err
  | .doError err => .error err
  | .body (.error err) => .error err
  | .body (.ok doc) =>
    match decodeResponse doc with
    | .error err => .error err
    | .ok r => .ok r.ISSPosition

/-! ## The process -/

/-- The parsed command line (lines 89-94) and the link-time variable
`version`. -/
structure Config where
  vers : Bool
  intervalFlag : Int
  geofenseSizeFlag : String
  tile38AddressFlag : String
  locationFlag : String
  version : String

/-- The result of a call that returns an error value: it went through, or it
returned the given error. -/
inductive Reply where
  | ack : Reply
  | error (err : String) : Reply
  deriving DecidableEq

/-- A network action of the process: `redis.Dial(network, address)`,
`c.Do(args...)` on the store connection, or the HTTP GET of `hc.Do`. -/
inductive Event where
  | dial (network address : String) : Event
  | command (args : List String) : Event
  | httpGet (url : String) : Event
  deriving DecidableEq

/-- Where the process is: inside `main` (blocked on the ticker once the loop
is entered), ended with an exit status, or ended by a run-time panic. -/
inductive Status where
  | running : Status
  | exited (code : Nat) : Status
  | panicked (msg : String) : Status
  deriving DecidableEq

/-- What is observable of an execution so far. -/
structure Run where
  status : Status
  events : List Event
  output : List String
  deriving DecidableEq

/-- What happens at one tick: the outcome of the HTTP round trip and the
store's reply to the `SET` command, consulted only if the command is sent. -/
structure Tick where
  fetch : HttpOutcome
  setReply : Reply

/-- The outcomes the environment holds ready for one execution. -/
structure Env where
  dial : Reply
  nearby : Reply
  ticks : List Tick

/-- The store commands among a list of network actions, in order. -/
def commands : List Event → List (List String)
  | [] => []
  | .command args :: es => args :: commands es
  | _ :: es => commands es

/-- Is this command a `NEARBY` command? -/
def isNearby (args : List String) : Bool :=
  args.head? == some "NEARBY"

/-- Is this command a `SET` command? -/
def isSet (args : List String) : Bool :=
  args.head? == some "SET"

/-- The geofence registration command of line 129. -/
def nearbyCommand (lat lon radius : String) : List String :=
  ["NEARBY", "earth-orbit", "FENCE", "DETECT", "enter", "POINT", lat, lon, radius]

/-- The point update command of line 148. -/
def setCommand (pos : issPosition) : List String :=
  ["SET", "earth-orbit", "iss", "POINT", pos.Latitude, pos.Longitude]

/-- The network actions of one call of `position`: the GET is attempted unless
building the request already failed. -/
def fetchEvents : HttpOutcome → List Event
  | .requestError _ => []
  | _ => [.httpGet positionURL]

/-- Lines 96-141 of `main`: everything before the loop.  The status `running`
says that the ticker was created and the loop is about to wait for its first
tick. -/
def startup (cfg : Config) (dial nearby : Reply) : Run :=
  if cfg.vers then
    ⟨.exited 0, [], ["version: " ++ cfg.version]⟩
  else if cfg.tile38AddressFlag = "" then
    ⟨.exited 1, [], ["error: tile38 address required"]⟩
  else if !stringsContains cfg.tile38AddressFlag ":" then
    ⟨.exited 1, [], ["error: tile38 address format incorrect"]⟩
  else
    match dial with
    | .error err => ⟨.exited 1, [.dial "tcp" cfg.tile38AddressFlag], [err]⟩
    | .ack =>
      if !stringsContains cfg.locationFlag "," then
        ⟨.exited 1, [.dial "tcp" cfg.tile38AddressFlag],
          ["error: location format requires a ',' seperating lat and lon"]⟩
      else
        match stringsSplit cfg.locationFlag "," with
        | loc0 :: loc1 :: _ =>
          let evs := [.dial "tcp" cfg.tile38AddressFlag,
            .command (nearbyCommand loc0 loc1 cfg.geofenseSizeFlag)]
          match nearby with
          | .error err => ⟨.exited 1, evs, [err]⟩
          | .ack =>
            if tickerDuration cfg.intervalFlag ≤ 0 then
              ⟨.panicked "non-positive interval for NewTicker", evs, []⟩
            else ⟨.running, evs, []⟩
        | _ =>
          ⟨.panicked "index out of range", [.dial "tcp" cfg.tile38AddressFlag], []⟩

/-- One iteration of the loop of lines 142-153, for a tick that arrives while
the process is in state `r`.  A process that has ended handles nothing. -/
def step (r : Run) (t : Tick) : Run :=
  match r.status with
  | .running =>
    match position t.fetch with
    | .error err =>
      { r with events := r.events ++ fetchEvents t.fetch, output := r.output ++ [err] }
    | .ok none =>
      { r with
        status := .panicked "invalid memory address or nil pointer dereference",
        events := r.events ++ fetchEvents t.fetch }
    | .ok (some pos) =>
      match t.setReply with
      | .error err =>
        { r with
          events := r.events ++ fetchEvents t.fetch ++ [.command (setCommand pos)],
          output := r.output ++ [err] }
      | .ack =>
        { r with events := r.events ++ fetchEvents t.fetch ++ [.command (setCommand pos)] }
  | _ => r

/-- The loop over the ticks that arrive, in order. -/
def runLoop (r : Run) (ts : List Tick) : Run :=
  ts.foldl step r

/-- The network actions a loop that has just been entered performs over the
given ticks. -/
def loopEvents (ts : List Tick) : List Event :=
  (runLoop ⟨.running, [], []⟩ ts).events

/-- Did the fetch of this tick return a nil pointer together with a nil
error? -/
def fetchedNil (t : Tick) : Bool :=
  match position t.fetch with
  | .ok none => true
  | _ => false

/-- The `SET` command that belongs to a tick: the one built from the position
its fetch returned, if it returned one. -/
def setOf (t : Tick) : Option (List String) :=
  match position t.fetch with
  | .ok (some pos) => some (setCommand pos)
  | _ => none

/-- The ticks the loop gets to handle: all of them up to and including the
first one whose fetch returned a nil pointer. -/
def handledTicks : List Tick → List Tick
  | [] => []
  | t :: ts => if fetchedNil t then [t] else t :: handledTicks ts

/-- The source function `main`, observed after the ticks of `env`. -/
def main (cfg : Config) (env : Env) : Run :=
  runLoop (startup cfg env.dial env.nearby) env.ticks

/-! ## Sample inputs -/

/-- The command line `-t localhost:9851 -i 10 -s 5000 -l 33.4484,112.0740`. -/
def scenarioA : Config :=
  ⟨false, 10, "5000", "localhost:9851", "33.4484,112.0740", ""⟩

/-- A reply of the upstream service. -/
def sampleDocument : JSON :=
  .obj [("message", .str "success"), ("timestamp", .num (some 1700000000)),
    ("iss_position", .obj [("longitude", .str "78.9012"), ("latitude", .str "-12.3456")])]

/-- A reply in which a second member spells the key `latitude` in capitals. -/
def shoutingDocument : JSON :=
  .obj [("iss_position",
    .obj [("latitude", .str "1"), ("longitude", .str "3"), ("LATITUDE", .str "2")])]

/-- A reply without the member `iss_position`. -/
def emptyDocument : JSON :=
  .obj [("message", .str "success"), ("timestamp", .num (some 1700000000))]

theorem startsWith_nil (s : List Char) : startsWith s [] = true := by
  cases s <;> rfl

theorem startsWith_singleton (c : Char) (s : List Char) :
    startsWith s [c] = true ↔ ∃ t, s = c :: t := by
  cases s with
  | nil =>
    constructor
    · intro h
      exact Bool.noConfusion h
    · rintro ⟨t, ht⟩
      exact List.noConfusion ht
  | cons d t =>
    have e : startsWith (d :: t) [c] = (d == c && startsWith t []) := rfl
    rw [e, startsWith_nil, Bool.and_true]
    constructor
    · intro h
      exact ⟨t, by rw [eq_of_beq h]⟩
    · rintro ⟨u, hu⟩
      injection hu with h1 _
      rw [h1]
      exact beq_self_eq_true c

theorem containsChars_singleton (c : Char) (s : List Char) :
    containsChars [c] s = true ↔ c ∈ s := by
  induction s with
  | nil => simp [containsChars, startsWith]
  | cons d t ih =>
    have h := startsWith_singleton c (d :: t)
    simp only [containsChars, Bool.or_eq_true, ih, h, List.mem_cons]
    constructor
    · rintro (⟨u, hu⟩ | h)
      · left; injection hu with h1 _; exact h1.symm
      · right; exact h
    · rintro (h | h)
      · left; exact ⟨t, by rw [h]⟩
      · right; exact h

theorem splitChars_ne_nil (sep : List Char) (k : Nat) (s : List Char) :
    splitChars sep k s ≠ [] := by
  induction s generalizing k with
  | nil => cases k <;> simp [splitChars]
  | cons c cs ih =>
    cases k with
    | succ k => simpa [splitChars] using ih k
    | zero =>
      simp only [splitChars]
      split
      · simp
      · split <;> simp

theorem splitChars_of_not_mem (c : Char) (s : List Char) (h : c ∉ s) :
    splitChars [c] 0 s = [s] := by
  induction s with
  | nil => simp [splitChars]
  | cons d t ih =>
    have hd : d ≠ c := fun e => h (by simp [e])
    have ht : c ∉ t := fun e => h (by simp [e])
    have hs : startsWith (d :: t) [c] = false := by
      cases hsw : startsWith (d :: t) [c] with
      | false => rfl
      | true =>
        obtain ⟨u, hu⟩ := (startsWith_singleton c (d :: t)).1 hsw
        injection hu with h1 _
        exact absurd h1 hd
    simp [splitChars, hs, ih ht]

theorem splitChars_append (c : Char) (a b : List Char) (h : c ∉ a) :
    splitChars [c] 0 (a ++ c :: b) = a :: splitChars [c] 0 b := by
  induction a with
  | nil =>
    have hs : startsWith (c :: b) [c] = true :=
      (startsWith_singleton c (c :: b)).2 ⟨b, rfl⟩
    simp [splitChars, hs]
  | cons d t ih =>
    have hd : d ≠ c := fun e => h (by simp [e])
    have ht : c ∉ t := fun e => h (by simp [e])
    have hs : startsWith (d :: (t ++ c :: b)) [c] = false := by
      cases hsw : startsWith (d :: (t ++ c :: b)) [c] with
      | false => rfl
      | true =>
        obtain ⟨u, hu⟩ := (startsWith_singleton c _).1 hsw
        injection hu with h1 _
        exact absurd h1 hd
    simp [splitChars, hs, ih ht]

theorem two_le_length_splitChars (c : Char) (s : List Char) (h : c ∈ s) :
    2 ≤ (splitChars [c] 0 s).length := by
  induction s with
  | nil => simp at h
  | cons d t ih =>
    by_cases hs : startsWith (d :: t) [c] = true
    · have hne := splitChars_ne_nil [c] 0 t
      have e : splitChars [c] 0 (d :: t) = [] :: splitChars [c] 0 t := by
        simp [splitChars, hs]
      rw [e, List.length_cons]
      have : 0 < (splitChars [c] 0 t).length := List.length_pos.2 hne
      omega
    · have hd : d ≠ c := by
        intro e
        exact hs ((startsWith_singleton c (d :: t)).2 ⟨t, by rw [e]⟩)
      have ht : c ∈ t := by
        rcases List.mem_cons.1 h with h1 | h1
        · exact absurd h1.symm hd
        · exact h1
      have ih2 := ih ht
      simp only [splitChars, hs]
      cases hsp : splitChars [c] 0 t with
      | nil => exact absurd hsp (splitChars_ne_nil _ _ _)
      | cons x xs =>
        rw [hsp] at ih2
        simpa using ih2

theorem stringsContains_comma (s : String) :
    stringsContains s "," = true ↔ ',' ∈ s.data := by
  unfold stringsContains
  exact containsChars_singleton ',' s.data

theorem stringsContains_colon (s : String) :
    stringsContains s ":" = true ↔ ':' ∈ s.data := by
  unfold stringsContains
  exact containsChars_singleton ':' s.data

theorem stringsSplit_comma (s : String) :
    stringsSplit s "," = (splitChars [','] 0 s.data).map String.mk := by
  unfold stringsSplit
  rfl

theorem stringsSplit_pair (a b : String) (ha : stringsContains a "," = false)
    (hb : stringsContains b "," = false) :
    stringsSplit (a ++ "," ++ b) "," = [a, b] := by
  have ha2 : ',' ∉ a.data := by
    intro h
    rw [(stringsContains_comma a).2 h] at ha
    exact Bool.noConfusion ha
  have hb2 : ',' ∉ b.data := by
    intro h
    rw [(stringsContains_comma b).2 h] at hb
    exact Bool.noConfusion hb
  have hd : (a ++ "," ++ b).data = a.data ++ ',' :: b.data := by
    simp [String.data_append]
  rw [stringsSplit_comma, hd, splitChars_append _ _ _ ha2, splitChars_of_not_mem _ _ hb2]
  rfl

theorem two_le_length_stringsSplit (s : String) (h : stringsContains s "," = true) :
    2 ≤ (stringsSplit s ",").length := by
  rw [stringsSplit_comma, List.length_map]
  exact two_le_length_splitChars ',' s.data ((stringsContains_comma s).1 h)

theorem tickerDuration_of_range (i : Int) (h0 : 0 < i) (h1 : i ≤ 9223372036) :
    tickerDuration i = 1000000000 * i := by
  unfold tickerDuration wrapInt64 timeSecond
  have e1 : (i + 2 ^ 63) % 2 ^ 64 = i + 2 ^ 63 := by
    apply Int.emod_eq_of_lt <;> omega
  rw [e1]
  have e2 : i + 2 ^ 63 - 2 ^ 63 = i := by omega
  rw [e2]
  have e3 : (1000000000 * i + 2 ^ 63) % 2 ^ 64 = 1000000000 * i + 2 ^ 63 := by
    apply Int.emod_eq_of_lt <;> omega
  rw [e3]
  omega

/-! ## The loop -/

theorem commands_append (xs ys : List Event) :
    commands (xs ++ ys) = commands xs ++ commands ys := by
  induction xs with
  | nil => rfl
  | cons e es ih =>
    cases e <;> simp [commands, ih]

theorem commands_fetchEvents (o : HttpOutcome) : commands (fetchEvents o) = [] := by
  cases o <;> rfl

theorem step_of_not_running (r : Run) (t : Tick) (h : r.status ≠ .running) :
    step r t = r := by
  unfold step
  split
  · next hs => exact absurd hs h
  · rfl

theorem runLoop_of_not_running (r : Run) (ts : List Tick) (h : r.status ≠ .running) :
    runLoop r ts = r := by
  induction ts with
  | nil => rfl
  | cons t ts ih =>
    show runLoop (step r t) ts = r
    rw [step_of_not_running r t h]
    exact ih

theorem runLoop_nil (r : Run) : runLoop r [] = r := rfl

theorem runLoop_cons (r : Run) (t : Tick) (ts : List Tick) :
    runLoop r (t :: ts) = runLoop (step r t) ts := rfl

theorem runLoop_append (r : Run) (xs ys : List Tick) :
    runLoop r (xs ++ ys) = runLoop (runLoop r xs) ys := by
  unfold runLoop
  exact List.foldl_append _ _ _ _

theorem step_error (r : Run) (t : Tick) (err : String) (hr : r.status = .running)
    (h : position t.fetch = .error err) :
    step r t = { r with events := r.events ++ fetchEvents t.fetch, output := r.output ++ [err] } := by
  unfold step
  rw [hr]
  simp only [h]

theorem step_nil (r : Run) (t : Tick) (hr : r.status = .running)
    (h : position t.fetch = .ok none) :
    step r t = { r with
      status := .panicked "invalid memory address or nil pointer dereference",
      events := r.events ++ fetchEvents t.fetch } := by
  unfold step
  rw [hr]
  simp only [h]

theorem step_pos_events (r : Run) (t : Tick) (pos : issPosition) (hr : r.status = .running)
    (h : position t.fetch = .ok (some pos)) :
    (step r t).events = r.events ++ fetchEvents t.fetch ++ [.command (setCommand pos)] ∧
    (step r t).status = .running := by
  unfold step
  rw [hr]
  simp only [h]
  cases t.setReply <;> exact ⟨rfl, rfl⟩

/-- Two executions in the same status, one of which has performed some
actions more, stay so over a tick with the same fetch outcome, whatever the
store replies in either. -/
theorem step_sim (r r' : Run) (t t' : Tick) (base : List Event)
    (hs : r.status = r'.status) (he : r.events = base ++ r'.events)
    (hf : t.fetch = t'.fetch) :
    (step r t).status = (step r' t').status ∧
    (step r t).events = base ++ (step r' t').events := by
  by_cases hr : r.status = .running
  · have hr' : r'.status = .running := hs ▸ hr
    rcases hp : position t.fetch with err | (_ | pos)
    · have hp' : position t'.fetch = .error err := hf ▸ hp
      rw [step_error r t err hr hp, step_error r' t' err hr' hp']
      simp [hs, he, hf, List.append_assoc]
    · have hp' : position t'.fetch = .ok none := hf ▸ hp
      rw [step_nil r t hr hp, step_nil r' t' hr' hp']
      simp [he, hf, List.append_assoc]
    · have hp' : position t'.fetch = .ok (some pos) := hf ▸ hp
      obtain ⟨e1, s1⟩ := step_pos_events r t pos hr hp
      obtain ⟨e2, s2⟩ := step_pos_events r' t' pos hr' hp'
      rw [e1, e2, s1, s2]
      simp [he, hf, List.append_assoc]
  · have hr' : r'.status ≠ .running := hs ▸ hr
    rw [step_of_not_running r t hr, step_of_not_running r' t' hr']
    exact ⟨hs, he⟩

theorem runLoop_sim (ts ts' : List Tick) (hf : ts.map (·.fetch) = ts'.map (·.fetch))
    (r r' : Run) (base : List Event)
    (hs : r.status = r'.status) (he : r.events = base ++ r'.events) :
    (runLoop r ts).status = (runLoop r' ts').status ∧
    (runLoop r ts).events = base ++ (runLoop r' ts').events := by
  induction ts generalizing ts' r r' with
  | nil =>
    cases ts' with
    | nil => exact ⟨hs, he⟩
    | cons t' ts' => simp at hf
  | cons t ts ih =>
    cases ts' with
    | nil => simp at hf
    | cons t' ts' =>
      simp only [List.map_cons, List.cons.injEq] at hf
      obtain ⟨h1, h2⟩ := step_sim r r' t t' base hs he hf.1
      exact ih ts' hf.2 (step r t) (step r' t') h1 h2

theorem runLoop_events (r : Run) (ts : List Tick) (hr : r.status = .running) :
    (runLoop r ts).events = r.events ++ loopEvents ts ∧
    (runLoop r ts).status = (runLoop ⟨.running, [], []⟩ ts).status := by
  have h := runLoop_sim ts ts rfl r ⟨.running, [], []⟩ r.events hr (by simp)
  exact ⟨h.2, h.1⟩

theorem step_running_of_not_nil (r : Run) (t : Tick) (hr : r.status = .running)
    (h : fetchedNil t = false) : (step r t).status = .running := by
  rcases hp : position t.fetch with err | (_ | pos)
  · rw [step_error r t err hr hp]
    exact hr
  · simp [fetchedNil, hp] at h
  · exact (step_pos_events r t pos hr hp).2

theorem runLoop_running_of_not_nil (ts : List Tick) (r : Run) (hr : r.status = .running)
    (h : ∀ t ∈ ts, fetchedNil t = false) : (runLoop r ts).status = .running := by
  induction ts generalizing r with
  | nil => exact hr
  | cons t ts ih =>
    rw [runLoop_cons]
    exact ih (step r t) (step_running_of_not_nil r t hr (h t (by simp)))
      (fun u hu => h u (by simp [hu]))

theorem step_commands (r : Run) (t : Tick) (hr : r.status = .running) :
    commands (step r t).events = commands r.events ++ (setOf t).toList := by
  rcases hp : position t.fetch with err | (_ | pos)
  · rw [step_error r t err hr hp]
    simp [commands_append, commands_fetchEvents, setOf, hp]
  · rw [step_nil r t hr hp]
    simp [commands_append, commands_fetchEvents, setOf, hp]
  · rw [(step_pos_events r t pos hr hp).1]
    simp [commands_append, commands_fetchEvents, setOf, hp, commands]

theorem runLoop_commands (ts : List Tick) (r : Run) (hr : r.status = .running) :
    commands (runLoop r ts).events
      = commands r.events ++ (handledTicks ts).filterMap setOf := by
  induction ts generalizing r with
  | nil => simp [runLoop_nil, handledTicks]
  | cons t ts ih =>
    rw [runLoop_cons]
    by_cases hn : fetchedNil t = true
    · have hp : position t.fetch = .ok none := by
        unfold fetchedNil at hn
        split at hn
        · assumption
        · exact Bool.noConfusion hn
      have hst : (step r t).status ≠ .running := by
        rw [step_nil r t hr hp]
        simp
      rw [runLoop_of_not_running _ _ hst, step_commands r t hr]
      simp [handledTicks, hn, setOf, hp]
    · have hn2 : fetchedNil t = false := by simpa using hn
      rw [ih (step r t) (step_running_of_not_nil r t hr hn2), step_commands r t hr]
      cases hso : setOf t <;> simp [handledTicks, hn2, hso, List.filterMap_cons]

theorem setOf_isSet (t : Tick) (c : List String) (h : setOf t = some c) :
    isSet c = true ∧ isNearby c = false := by
  unfold setOf at h
  split at h
  · injection h with h
    subst h
    exact ⟨by simp [isSet, setCommand], by simp [isNearby, setCommand]⟩
  · exact Option.noConfusion h

/-! ## Startup -/

theorem ne_empty_of_contains_colon (s : String) (h : stringsContains s ":" = true) :
    s ≠ "" := by
  intro e
  subst e
  exact Bool.noConfusion h

theorem startup_bad_address (cfg : Config) (dial nearby : Reply) (hv : cfg.vers = false)
    (h : cfg.tile38AddressFlag = "" ∨ stringsContains cfg.tile38AddressFlag ":" = false) :
    (startup cfg dial nearby).status = .exited 1 ∧ (startup cfg dial nearby).events = [] := by
  unfold startup
  rw [if_neg (by simp [hv])]
  by_cases he : cfg.tile38AddressFlag = ""
  · rw [if_pos he]
    exact ⟨rfl, rfl⟩
  · rw [if_neg he]
    have hc : stringsContains cfg.tile38AddressFlag ":" = false := by
      rcases h with h | h
      · exact absurd h he
      · exact h
    rw [if_pos (by simp [hc])]
    exact ⟨rfl, rfl⟩

theorem startup_dialed (cfg : Config) (nearby : Reply) (hv : cfg.vers = false)
    (ha : stringsContains cfg.tile38AddressFlag ":" = true) (err : String) :
    startup cfg (.error err) nearby
      = ⟨.exited 1, [.dial "tcp" cfg.tile38AddressFlag], [err]⟩ := by
  unfold startup
  rw [if_neg (by simp [hv]), if_neg (ne_empty_of_contains_colon _ ha), if_neg (by simp [ha])]

theorem startup_bad_location (cfg : Config) (nearby : Reply) (hv : cfg.vers = false)
    (ha : stringsContains cfg.tile38AddressFlag ":" = true)
    (hl : stringsContains cfg.locationFlag "," = false) :
    startup cfg .ack nearby
      = ⟨.exited 1, [.dial "tcp" cfg.tile38AddressFlag],
          ["error: location format requires a ',' seperating lat and lon"]⟩ := by
  unfold startup
  rw [if_neg (by simp [hv]), if_neg (ne_empty_of_contains_colon _ ha), if_neg (by simp [ha])]
  simp only
  rw [if_pos (by simp [hl])]

theorem startup_registered (cfg : Config) (nearby : Reply) (hv : cfg.vers = false)
    (ha : stringsContains cfg.tile38AddressFlag ":" = true)
    (hl : stringsContains cfg.locationFlag "," = true) :
    ∃ loc0 loc1 rest, stringsSplit cfg.locationFlag "," = loc0 :: loc1 :: rest ∧
      startup cfg .ack nearby =
        match nearby with
        | .error err =>
          ⟨.exited 1, [.dial "tcp" cfg.tile38AddressFlag,
            .command (nearbyCommand loc0 loc1 cfg.geofenseSizeFlag)], [err]⟩
        | .ack =>
          if tickerDuration cfg.intervalFlag ≤ 0 then
            ⟨.panicked "non-positive interval for NewTicker",
              [.dial "tcp" cfg.tile38AddressFlag,
                .command (nearbyCommand loc0 loc1 cfg.geofenseSizeFlag)], []⟩
          else
            ⟨.running, [.dial "tcp" cfg.tile38AddressFlag,
              .command (nearbyCommand loc0 loc1 cfg.geofenseSizeFlag)], []⟩ := by
  have h2 := two_le_length_stringsSplit cfg.locationFlag hl
  rcases hsp : stringsSplit cfg.locationFlag "," with _ | ⟨loc0, _ | ⟨loc1, rest⟩⟩
  · rw [hsp] at h2; simp at h2
  · rw [hsp] at h2; simp at h2
  · refine ⟨loc0, loc1, rest, rfl, ?_⟩
    unfold startup
    rw [if_neg (by simp [hv]), if_neg (ne_empty_of_contains_colon _ ha), if_neg (by simp [ha])]
    simp only
    rw [if_neg (by simp [hl])]
    simp only [hsp]

/-- Before the loop the process has sent no store command at all unless it
got as far as the registration, and it is in the loop only after it. -/
theorem startup_commands (cfg : Config) (dial nearby : Reply) :
    (commands (startup cfg dial nearby).events = [] ∧
      (startup cfg dial nearby).status ≠ .running) ∨
    ∃ lat lon, commands (startup cfg dial nearby).events
      = [nearbyCommand lat lon cfg.geofenseSizeFlag] := by
  by_cases hv : cfg.vers = true
  · left
    unfold startup
    rw [if_pos hv]
    exact ⟨rfl, by simp⟩
  · have hv2 : cfg.vers = false := by simpa using hv
    by_cases ha : stringsContains cfg.tile38AddressFlag ":" = true
    · cases dial with
      | error err =>
        left
        rw [startup_dialed cfg nearby hv2 ha err]
        exact ⟨rfl, by simp⟩
      | ack =>
        by_cases hl : stringsContains cfg.locationFlag "," = true
        · right
          obtain ⟨loc0, loc1, rest, _, hst⟩ := startup_registered cfg nearby hv2 ha hl
          refine ⟨loc0, loc1, ?_⟩
          rw [hst]
          cases nearby with
          | error err => rfl
          | ack =>
            simp only
            split <;> rfl
        · left
          have hl2 : stringsContains cfg.locationFlag "," = false := by simpa using hl
          rw [startup_bad_location cfg nearby hv2 ha hl2]
          exact ⟨rfl, by simp⟩
    · left
      have ha2 : stringsContains cfg.tile38AddressFlag ":" = false := by simpa using ha
      obtain ⟨h1, h2⟩ := startup_bad_address cfg dial nearby hv2 (Or.inr ha2)
      rw [h1, h2]
      exact ⟨rfl, by simp⟩

/-! ## Decoding -/

theorem posFieldOf_Longitude_iff (key : String) :
    posFieldOf key = some .Longitude ↔ keyMatches "latitude" key = true := by
  unfold posFieldOf keyMatches
  have hne : foldName "longitude" ≠ foldName "latitude" := by decide
  by_cases h1 : key = "longitude"
  · subst h1
    decide
  · by_cases h2 : key = "latitude"
    · subst h2
      decide
    · by_cases h3 : foldName key = foldName "longitude"
      · have h4 : foldName key ≠ foldName "latitude" := h3 ▸ hne
        simp [h1, h2, h3, h4, hne, hne.symm]
      · by_cases h4 : foldName key = foldName "latitude"
        · simp [h1, h2, h3, h4, hne, hne.symm]
        · simp [h1, h2, h3, h4, hne, hne.symm]

theorem posFieldOf_Latitude_iff (key : String) :
    posFieldOf key = some .Latitude ↔ keyMatches "longitude" key = true := by
  unfold posFieldOf keyMatches
  have hne : foldName "latitude" ≠ foldName "longitude" := by decide
  by_cases h1 : key = "longitude"
  · subst h1
    decide
  · by_cases h2 : key = "latitude"
    · subst h2
      decide
    · by_cases h3 : foldName key = foldName "longitude"
      · simp [h1, h2, h3, hne, hne.symm]
      · by_cases h4 : foldName key = foldName "latitude"
        · simp [h1, h2, h3, h4, hne, hne.symm]
        · simp [h1, h2, h3, h4, hne, hne.symm]

theorem respFieldOf_ISSPosition_iff (key : String) :
    respFieldOf key = some .ISSPosition ↔ keyMatches "iss_position" key = true := by
  unfold respFieldOf keyMatches
  have n1 : foldName "message" ≠ foldName "iss_position" := by decide
  have n2 : foldName "timestamp" ≠ foldName "iss_position" := by decide
  have n3 : foldName "timestamp" ≠ foldName "message" := by decide
  by_cases h1 : key = "iss_position"
  · subst h1
    decide
  · by_cases h2 : key = "message"
    · subst h2
      decide
    · by_cases h3 : key = "timestamp"
      · subst h3
        decide
      · by_cases h4 : foldName key = foldName "iss_position"
        · simp [h1, h2, h3, h4, n1, n2, n3]
        · by_cases h5 : foldName key = foldName "message"
          · simp [h1, h2, h3, h4, h5, n1, n2, n3]
          · by_cases h6 : foldName key = foldName "timestamp"
            · simp [h1, h2, h3, h4, h5, h6, n1, n2, n3]
            · simp [h1, h2, h3, h4, h5, h6, n1, n2, n3]

theorem decodePosMembers_cons (p : issPosition) (key : String) (v : JSON)
    (ms : List (String × JSON)) (p' : issPosition)
    (h : decodePosMembers p ((key, v) :: ms) = .ok p') :
    ∃ q, decodePosMembers q ms = .ok p' ∧
      (∀ f, posFieldOf key ≠ some f → posGet f q = posGet f p) ∧
      (∀ f s, posFieldOf key = some f → v = .str s → posGet f q = s) := by
  unfold decodePosMembers at h
  rcases hk : posFieldOf key with _ | (_ | _)
  · rw [hk] at h
    exact ⟨p, h, fun _ _ => rfl, fun f s hf _ => Option.noConfusion hf⟩
  · rw [hk] at h
    simp only at h
    rcases hd : decodeString p.Latitude v with e | s
    · rw [hd] at h
      exact Except.noConfusion h
    · rw [hd] at h
      refine ⟨{ p with Latitude := s }, h, ?_, ?_⟩
      · intro f hf
        cases f with
        | Latitude => exact absurd rfl hf
        | Longitude => rfl
      · intro f s' hf hv
        injection hf with hf
        subst hf
        subst hv
        injection hd with hd
        exact hd.symm
  · rw [hk] at h
    simp only at h
    rcases hd : decodeString p.Longitude v with e | s
    · rw [hd] at h
      exact Except.noConfusion h
    · rw [hd] at h
      refine ⟨{ p with Longitude := s }, h, ?_, ?_⟩
      · intro f hf
        cases f with
        | Latitude => rfl
        | Longitude => exact absurd rfl hf
      · intro f s' hf hv
        injection hf with hf
        subst hf
        subst hv
        injection hd with hd
        exact hd.symm

/-- Members that select another field leave a field as it was. -/
theorem decodePosMembers_untouched (f : PosField) (ms : List (String × JSON))
    (p p' : issPosition) (hno : ∀ m ∈ ms, posFieldOf m.1 ≠ some f)
    (h : decodePosMembers p ms = .ok p') : posGet f p' = posGet f p := by
  induction ms generalizing p with
  | nil =>
    injection h with h
    rw [h]
  | cons m ms ih =>
    obtain ⟨key, v⟩ := m
    obtain ⟨q, hq, h1, _⟩ := decodePosMembers_cons p key v ms p' h
    rw [ih q (fun m hm => hno m (by simp [hm])) hq]
    exact h1 f (hno (key, v) (by simp))

/-- A field selected by exactly one member, a text, ends up holding it. -/
theorem decodePosMembers_unique (f : PosField) (ms : List (String × JSON))
    (p p' : issPosition) (k x : String)
    (hone : ms.filter (fun m => decide (posFieldOf m.1 = some f)) = [(k, .str x)])
    (h : decodePosMembers p ms = .ok p') : posGet f p' = x := by
  induction ms generalizing p with
  | nil => simp at hone
  | cons m ms ih =>
    obtain ⟨key, v⟩ := m
    obtain ⟨q, hq, h1, h2⟩ := decodePosMembers_cons p key v ms p' h
    by_cases hk : posFieldOf key = some f
    · rw [List.filter_cons_of_pos (by simpa using hk)] at hone
      injection hone with hm hrest
      injection hm with _ hv
      have hno : ∀ m ∈ ms, posFieldOf m.1 ≠ some f := by
        intro m hm
        have := (List.filter_eq_nil_iff.1 hrest) m hm
        simpa using this
      rw [decodePosMembers_untouched f ms q p' hno hq]
      exact h2 f x hk hv
    · rw [List.filter_cons_of_neg (by simpa using hk)] at hone
      exact ih q hone hq

theorem decodeRespMembers_cons (r : response) (key : String) (v : JSON)
    (ms : List (String × JSON)) (r' : response)
    (h : decodeRespMembers r ((key, v) :: ms) = .ok r') :
    ∃ q, decodeRespMembers q ms = .ok r' ∧
      (respFieldOf key ≠ some .ISSPosition → q.ISSPosition = r.ISSPosition) ∧
      (respFieldOf key = some .ISSPosition →
        decodePosPtr r.ISSPosition v = .ok q.ISSPosition) := by
  unfold decodeRespMembers at h
  rcases hk : respFieldOf key with _ | (_ | _ | _)
  · rw [hk] at h
    exact ⟨r, h, fun _ => rfl, fun hf => Option.noConfusion hf⟩
  · rw [hk] at h
    simp only at h
    rcases hd : decodePosPtr r.ISSPosition v with e | s
    · rw [hd] at h
      exact Except.noConfusion h
    · rw [hd] at h
      exact ⟨{ r with ISSPosition := s }, h, fun hf => absurd rfl hf, fun _ => rfl⟩
  · rw [hk] at h
    simp only at h
    rcases hd : decodeString r.Message v with e | s
    · rw [hd] at h
      exact Except.noConfusion h
    · rw [hd] at h
      exact ⟨{ r with Message := s }, h, fun _ => rfl, fun hf => by
        injection hf with hf
        exact RespField.noConfusion hf⟩
  · rw [hk] at h
    simp only at h
    rcases hd : decodeInt64 r.Timestamp v with e | s
    · rw [hd] at h
      exact Except.noConfusion h
    · rw [hd] at h
      exact ⟨{ r with Timestamp := s }, h, fun _ => rfl, fun hf => by
        injection hf with hf
        exact RespField.noConfusion hf⟩

theorem decodeRespMembers_untouched (ms : List (String × JSON)) (r r' : response)
    (hno : ∀ m ∈ ms, respFieldOf m.1 ≠ some .ISSPosition)
    (h : decodeRespMembers r ms = .ok r') : r'.ISSPosition = r.ISSPosition := by
  induction ms generalizing r with
  | nil =>
    injection h with h
    rw [h]
  | cons m ms ih =>
    obtain ⟨key, v⟩ := m
    obtain ⟨q, hq, h1, _⟩ := decodeRespMembers_cons r key v ms r' h
    rw [ih q (fun m hm => hno m (by simp [hm])) hq]
    exact h1 (hno (key, v) (by simp))

theorem decodeRespMembers_unique (ms ps : List (String × JSON)) (r r' : response)
    (k : String)
    (hone : ms.filter (fun m => decide (respFieldOf m.1 = some .ISSPosition))
      = [(k, .obj ps)])
    (h : decodeRespMembers r ms = .ok r') :
    ∃ p, decodePosMembers (r.ISSPosition.getD ⟨"", ""⟩) ps = .ok p ∧
      r'.ISSPosition = some p := by
  induction ms generalizing r with
  | nil => simp at hone
  | cons m ms ih =>
    obtain ⟨key, v⟩ := m
    obtain ⟨q, hq, h1, h2⟩ := decodeRespMembers_cons r key v ms r' h
    by_cases hk : respFieldOf key = some .ISSPosition
    · rw [List.filter_cons_of_pos (by simpa using hk)] at hone
      injection hone with hm hrest
      injection hm with _ hv
      have hno : ∀ m ∈ ms, respFieldOf m.1 ≠ some .ISSPosition := by
        intro m hm
        have := (List.filter_eq_nil_iff.1 hrest) m hm
        simpa using this
      rw [decodeRespMembers_untouched ms q r' hno hq]
      have hp := h2 hk
      rw [hv] at hp
      unfold decodePosPtr at hp
      simp only at hp
      rcases hd : decodePosMembers (r.ISSPosition.getD ⟨"", ""⟩) ps with e | p
      · rw [hd] at hp
        exact Except.noConfusion hp
      · rw [hd] at hp
        injection hp with hp
        exact ⟨p, rfl, hp.symm⟩
    · rw [List.filter_cons_of_neg (by simpa using hk)] at hone
      have hq2 := ih q hone hq
      rw [h1 hk] at hq2
      exact hq2

/-- The position `position` returns for a document in which one member
selects the position object and, inside it, one text member each selects the
two coordinates. -/
theorem position_of_unique_members (ms ps : List (String × JSON)) (k k1 k2 x y : String)
    (q : Option issPosition)
    (hpos : ms.filter (fun m => keyMatches "iss_position" m.1) = [(k, .obj ps)])
    (hlat : ps.filter (fun m => keyMatches "latitude" m.1) = [(k1, .str x)])
    (hlon : ps.filter (fun m => keyMatches "longitude" m.1) = [(k2, .str y)])
    (hok : position (.body (.ok (.obj ms))) = .ok q) :
    q = some ⟨y, x⟩ := by
  have e1 : (fun m : String × JSON => keyMatches "iss_position" m.1)
      = fun m => decide (respFieldOf m.1 = some .ISSPosition) := by
    funext m
    exact Bool.eq_iff_iff.2 (by simp [respFieldOf_ISSPosition_iff])
  have e2 : (fun m : String × JSON => keyMatches "latitude" m.1)
      = fun m => decide (posFieldOf m.1 = some .Longitude) := by
    funext m
    exact Bool.eq_iff_iff.2 (by simp [posFieldOf_Longitude_iff])
  have e3 : (fun m : String × JSON => keyMatches "longitude" m.1)
      = fun m => decide (posFieldOf m.1 = some .Latitude) := by
    funext m
    exact Bool.eq_iff_iff.2 (by simp [posFieldOf_Latitude_iff])
  rw [e1] at hpos
  rw [e2] at hlat
  rw [e3] at hlon
  unfold position at hok
  simp only [decodeResponse] at hok
  rcases hd : decodeRespMembers ⟨none, "", 0⟩ ms with e | r
  · rw [hd] at hok
    exact Except.noConfusion hok
  · rw [hd] at hok
    injection hok with hok
    obtain ⟨p, hp, hr⟩ := decodeRespMembers_unique ms ps _ r k hpos hd
    have hx := decodePosMembers_unique .Longitude ps _ p k1 x hlat hp
    have hy := decodePosMembers_unique .Latitude ps _ p k2 y hlon hp
    rw [← hok, hr]
    cases p with
    | mk la lo =>
      simp only [posGet] at hx hy
      rw [hx, hy]

/-! ## Shapes of a whole execution -/

theorem runLoop_events_append (r : Run) (ts : List Tick) :
    ∃ evs, (runLoop r ts).events = r.events ++ evs := by
  by_cases hr : r.status = .running
  · exact ⟨loopEvents ts, (runLoop_events r ts hr).1⟩
  · exact ⟨[], by rw [runLoop_of_not_running r ts hr, List.append_nil]⟩

theorem not_nearby_of_mem_sets (ts : List Tick) (d : List String)
    (h : d ∈ (handledTicks ts).filterMap setOf) : isSet d = true ∧ isNearby d = false := by
  obtain ⟨t, _, ht⟩ := List.mem_filterMap.1 h
  exact setOf_isSet t d ht

/-- The store commands of a whole execution: nothing, or the registration
followed by point updates only. -/
theorem main_commands (cfg : Config) (env : Env) :
    commands (main cfg env).events = [] ∨
    ∃ lat lon sets, commands (main cfg env).events
        = nearbyCommand lat lon cfg.geofenseSizeFlag :: sets ∧
      ∀ d ∈ sets, isSet d = true ∧ isNearby d = false := by
  unfold main
  rcases startup_commands cfg env.dial env.nearby with ⟨h0, hnr⟩ | ⟨lat, lon, h⟩
  · left
    rw [runLoop_of_not_running _ _ hnr, h0]
  · right
    by_cases hr : (startup cfg env.dial env.nearby).status = .running
    · refine ⟨lat, lon, (handledTicks env.ticks).filterMap setOf, ?_, ?_⟩
      · rw [runLoop_commands env.ticks _ hr, h]
        rfl
      · exact fun d hd => not_nearby_of_mem_sets env.ticks d hd
    · refine ⟨lat, lon, [], ?_, ?_⟩
      · rw [runLoop_of_not_running _ _ hr, h]
      · intro d hd
        simp at hd

theorem isNearby_nearbyCommand (lat lon radius : String) :
    isNearby (nearbyCommand lat lon radius) = true := by
  simp [isNearby, nearbyCommand]

theorem isSet_nearbyCommand (lat lon radius : String) :
    isSet (nearbyCommand lat lon radius) = false := by
  simp [isSet, nearbyCommand]

theorem filter_isNearby_eq_nil (sets : List (List String))
    (h : ∀ d ∈ sets, isSet d = true ∧ isNearby d = false) :
    sets.filter isNearby = [] := by
  apply List.filter_eq_nil_iff.2
  intro d hd
  simp [(h d hd).2]

/-- The loop has no exit of its own: from the running state it is left only
by a panic. -/
theorem runLoop_not_exited (ts : List Tick) (r : Run) (hr : r.status = .running)
    (n : Nat) : (runLoop r ts).status ≠ .exited n := by
  induction ts generalizing r with
  | nil =>
    rw [runLoop_nil, hr]
    simp
  | cons t ts ih =>
    rw [runLoop_cons]
    rcases hp : position t.fetch with e | (_ | p)
    · apply ih
      rw [step_error r t e hr hp]
      exact hr
    · have hs : (step r t).status ≠ .running := by
        rw [step_nil r t hr hp]
        simp
      rw [runLoop_of_not_running _ _ hs, step_nil r t hr hp]
      simp
    · exact ih _ (step_pos_events r t p hr hp).2

/-! ## The claims -/

/-- C1: in the ordered trace of store commands of any execution there is at
most one `NEARBY` command, and when the trace contains a `SET` command it
contains exactly one `NEARBY` command, which is its first element and so
precedes every `SET`. -/
theorem nearby_once_and_first (cfg : Config) (env : Env) :
    ((commands (main cfg env).events).filter isNearby).length ≤ 1 ∧
    ((∃ c ∈ commands (main cfg env).events, isSet c = true) →
      ((commands (main cfg env).events).filter isNearby).length = 1 ∧
      ∃ c rest, commands (main cfg env).events = c :: rest ∧ isNearby c = true ∧
        ∀ d ∈ rest, isNearby d = false) := by
  rcases main_commands cfg env with h0 | ⟨lat, lon, sets, h, hsets⟩
  · rw [h0]
    refine ⟨by simp, ?_⟩
    rintro ⟨c, hc, _⟩
    simp at hc
  · rw [h]
    have hf : (nearbyCommand lat lon cfg.geofenseSizeFlag :: sets).filter isNearby
        = [nearbyCommand lat lon cfg.geofenseSizeFlag] := by
      rw [List.filter_cons_of_pos (isNearby_nearbyCommand _ _ _),
        filter_isNearby_eq_nil sets hsets]
    rw [hf]
    refine ⟨by simp, fun _ => ⟨rfl, _, sets, rfl, isNearby_nearbyCommand _ _ _, ?_⟩⟩
    exact fun d hd => (hsets d hd).2

/-- C2: when the version flag is off, the address contains `":"`, the dial
succeeds and the location is `a ++ "," ++ b` with no comma in `a` or `b`, the
first store command is `NEARBY earth-orbit FENCE DETECT enter POINT a b r` with
`a`, `b` and the radius `r` passed as they were given. -/
theorem first_command_is_nearby_verbatim (cfg : Config) (env : Env) (a b : String)
    (hv : cfg.vers = false)
    (haddr : stringsContains cfg.tile38AddressFlag ":" = true)
    (hdial : env.dial = .ack)
    (hloc : cfg.locationFlag = a ++ "," ++ b)
    (ha : stringsContains a "," = false) (hb : stringsContains b "," = false) :
    (commands (main cfg env).events).head?
      = some ["NEARBY", "earth-orbit", "FENCE", "DETECT", "enter", "POINT", a, b,
          cfg.geofenseSizeFlag] := by
  have hsplit : stringsSplit cfg.locationFlag "," = [a, b] := by
    rw [hloc]
    exact stringsSplit_pair a b ha hb
  have hl : stringsContains cfg.locationFlag "," = true := by
    rw [stringsContains_comma, hloc]
    simp [String.data_append]
  obtain ⟨loc0, loc1, rest, hsp, hst⟩ := startup_registered cfg env.nearby hv haddr hl
  rw [hsplit] at hsp
  injection hsp with h0 hsp
  injection hsp with h1 _
  subst h0
  subst h1
  have hcmd : commands (startup cfg env.dial env.nearby).events
      = [nearbyCommand a b cfg.geofenseSizeFlag] := by
    rw [hdial, hst]
    cases env.nearby with
    | error err => rfl
    | ack =>
      simp only
      split <;> rfl
  obtain ⟨evs, hevs⟩ := runLoop_events_append (startup cfg env.dial env.nearby) env.ticks
  unfold main
  rw [hevs, commands_append, hcmd]
  rfl

/-- Witness of C2: location `33.4484,112.0740` and radius `5000`. -/
theorem first_command_is_nearby_verbatim_witness :
    stringsContains "localhost:9851" ":" = true ∧
    stringsContains "33.4484" "," = false ∧ stringsContains "112.0740" "," = false ∧
    (commands (main scenarioA ⟨.ack, .ack, []⟩).events).head?
      = some ["NEARBY", "earth-orbit", "FENCE", "DETECT", "enter", "POINT", "33.4484",
          "112.0740", "5000"] :=
  ⟨by decide, by decide, by decide,
    first_command_is_nearby_verbatim scenarioA ⟨.ack, .ack, []⟩ "33.4484" "112.0740"
      rfl (by decide) rfl (by decide) (by decide) (by decide)⟩

/-- C6: with the version flag off and a store address that is empty or lacks
`":"`, the process exits with status 1 and has performed no network action: no
dial, no store command, no HTTP request. -/
theorem bad_address_exits_before_network (cfg : Config) (env : Env)
    (hv : cfg.vers = false)
    (haddr : cfg.tile38AddressFlag = "" ∨
      stringsContains cfg.tile38AddressFlag ":" = false) :
    (main cfg env).status = .exited 1 ∧ (main cfg env).events = [] := by
  obtain ⟨h1, h2⟩ := startup_bad_address cfg env.dial env.nearby hv haddr
  have hnr : (startup cfg env.dial env.nearby).status ≠ .running := by
    rw [h1]
    simp
  unfold main
  rw [runLoop_of_not_running _ _ hnr]
  exact ⟨h1, h2⟩

/-- Witness of C6: the address `localhost`. -/
theorem bad_address_exits_before_network_witness :
    stringsContains "localhost" ":" = false ∧
    (main ⟨false, 10, "5000", "localhost", "33.4484,112.0740", ""⟩
      ⟨.ack, .ack, [⟨.body (.ok sampleDocument), .ack⟩]⟩).status = .exited 1 ∧
    (main ⟨false, 10, "5000", "localhost", "33.4484,112.0740", ""⟩
      ⟨.ack, .ack, [⟨.body (.ok sampleDocument), .ack⟩]⟩).events = [] :=
  ⟨by decide,
    bad_address_exits_before_network ⟨false, 10, "5000", "localhost", "33.4484,112.0740", ""⟩
      ⟨.ack, .ack, [⟨.body (.ok sampleDocument), .ack⟩]⟩ rfl (Or.inr (by decide))⟩

/-- C7 as stated fails: with the address `localhost:9851` and a reachable
store, the location `33.4484` (no comma) is rejected only after the dial, so
the execution has opened a connection to the store. -/
theorem location_check_follows_dial :
    ¬ ∀ (cfg : Config) (env : Env), cfg.vers = false →
      stringsContains cfg.locationFlag "," = false →
      (∃ n, n ≠ 0 ∧ (main cfg env).status = .exited n) ∧ (main cfg env).events = [] := by
  intro h
  have h2 := (h ⟨false, 60, "5000", "localhost:9851", "33.4484", ""⟩ ⟨.ack, .ack, []⟩
    rfl (by decide)).2
  revert h2
  decide

/-- C7, amended: with the version flag off and a location without `","`, the
process exits with status 1 without sending a store command or an HTTP
request; its only possible network action is the dial, which it performs
exactly when the address is non-empty and contains `":"`. -/
theorem bad_location_exits_after_dial (cfg : Config) (env : Env)
    (hv : cfg.vers = false)
    (hloc : stringsContains cfg.locationFlag "," = false) :
    (main cfg env).status = .exited 1 ∧
    (main cfg env).events =
      (if cfg.tile38AddressFlag = "" ∨ stringsContains cfg.tile38AddressFlag ":" = false
        then [] else [.dial "tcp" cfg.tile38AddressFlag]) ∧
    commands (main cfg env).events = [] ∧
    ∀ url, Event.httpGet url ∉ (main cfg env).events := by
  have key : (main cfg env).status = .exited 1 ∧
      (main cfg env).events =
        (if cfg.tile38AddressFlag = "" ∨ stringsContains cfg.tile38AddressFlag ":" = false
          then [] else [.dial "tcp" cfg.tile38AddressFlag]) := by
    by_cases hb : cfg.tile38AddressFlag = "" ∨
        stringsContains cfg.tile38AddressFlag ":" = false
    · obtain ⟨h1, h2⟩ := startup_bad_address cfg env.dial env.nearby hv hb
      have hnr : (startup cfg env.dial env.nearby).status ≠ .running := by
        rw [h1]
        simp
      unfold main
      rw [runLoop_of_not_running _ _ hnr, if_pos hb]
      exact ⟨h1, h2⟩
    · have ha : stringsContains cfg.tile38AddressFlag ":" = true := by
        cases hc : stringsContains cfg.tile38AddressFlag ":" with
        | true => rfl
        | false => exact absurd (Or.inr hc) hb
      have hst : startup cfg env.dial env.nearby
            = ⟨.exited 1, [.dial "tcp" cfg.tile38AddressFlag],
                (startup cfg env.dial env.nearby).output⟩ := by
        cases hd : env.dial with
        | error err => rw [startup_dialed cfg env.nearby hv ha err]
        | ack => rw [startup_bad_location cfg env.nearby hv ha hloc]
      have hnr : (startup cfg env.dial env.nearby).status ≠ .running := by
        rw [hst]
        simp
      unfold main
      rw [runLoop_of_not_running _ _ hnr, if_neg hb, hst]
      exact ⟨rfl, rfl⟩
  refine ⟨key.1, key.2, ?_, ?_⟩
  · rw [key.2]
    split <;> rfl
  · intro url
    rw [key.2]
    split <;> simp

/-- Witness of C7, amended: the location `33.4484`, once with the address
`localhost:9851`. -/
theorem bad_location_exits_after_dial_witness :
    stringsContains "33.4484" "," = false ∧
    (main ⟨false, 60, "5000", "localhost:9851", "33.4484", ""⟩ ⟨.ack, .ack, []⟩).status
      = .exited 1 ∧
    (main ⟨false, 60, "5000", "localhost:9851", "33.4484", ""⟩ ⟨.ack, .ack, []⟩).events
      = [.dial "tcp" "localhost:9851"] :=
  have h := bad_location_exits_after_dial
    ⟨false, 60, "5000", "localhost:9851", "33.4484", ""⟩ ⟨.ack, .ack, []⟩ rfl (by decide)
  ⟨by decide, h.1, h.2.1⟩

/-- C8: with the version flag off, an address containing `":"`, a location
containing `","` and a successful dial, an error reply to the `NEARBY`
command makes the process exit with status 1; its network actions are the
dial and that one `NEARBY` command, so the command is not repeated and there
is neither an HTTP request nor a `SET` command. -/
theorem nearby_error_is_fatal (cfg : Config) (env : Env) (err : String)
    (hv : cfg.vers = false)
    (haddr : stringsContains cfg.tile38AddressFlag ":" = true)
    (hloc : stringsContains cfg.locationFlag "," = true)
    (hdial : env.dial = .ack)
    (hnearby : env.nearby = .error err) :
    (main cfg env).status = .exited 1 ∧
    (main cfg env).events
      = [.dial "tcp" cfg.tile38AddressFlag,
          .command (nearbyCommand ((stringsSplit cfg.locationFlag ",").getD 0 "")
            ((stringsSplit cfg.locationFlag ",").getD 1 "") cfg.geofenseSizeFlag)] ∧
    (main cfg env).output = [err] := by
  obtain ⟨loc0, loc1, rest, hsp, hst⟩ := startup_registered cfg env.nearby hv haddr hloc
  rw [hnearby] at hst
  simp only at hst
  have hnr : (startup cfg env.dial env.nearby).status ≠ .running := by
    rw [hdial, hnearby, hst]
    simp
  unfold main
  rw [runLoop_of_not_running _ _ hnr, hdial, hnearby, hst, hsp]
  exact ⟨rfl, rfl, rfl⟩

/-- Witness of C8: scenario A against a store that rejects the registration. -/
theorem nearby_error_is_fatal_witness :
    stringsContains "localhost:9851" ":" = true ∧
    stringsContains "33.4484,112.0740" "," = true ∧
    (main scenarioA ⟨.ack, .error "ERR", [⟨.body (.ok sampleDocument), .ack⟩]⟩).status
      = .exited 1 ∧
    (main scenarioA ⟨.ack, .error "ERR", [⟨.body (.ok sampleDocument), .ack⟩]⟩).events
      = [.dial "tcp" "localhost:9851",
          .command ["NEARBY", "earth-orbit", "FENCE", "DETECT", "enter", "POINT",
            "33.4484", "112.0740", "5000"]] :=
  have h := nearby_error_is_fatal scenarioA
    ⟨.ack, .error "ERR", [⟨.body (.ok sampleDocument), .ack⟩]⟩ "ERR"
    rfl (by decide) (by decide) rfl rfl
  ⟨by decide, by decide, h.1, h.2.1.trans (by decide)⟩

/-- C9 fails on the code: a reply without the member `iss_position` decodes
without error into a nil pointer, and the loop, which reads `pos.Latitude`
without a nil check, ends in a run-time panic at that tick. -/
theorem loop_panics_on_missing_position :
    position (.body (.ok emptyDocument)) = .ok none ∧
    position (.body (.ok (.obj [("iss_position", .null)]))) = .ok none ∧
    (main scenarioA ⟨.ack, .ack, [⟨.body (.ok emptyDocument), .ack⟩]⟩).status
      = .panicked "invalid memory address or nil pointer dereference" ∧
    commands (main scenarioA ⟨.ack, .ack,
        [⟨.body (.ok emptyDocument), .ack⟩, ⟨.body (.ok sampleDocument), .ack⟩]⟩).events
      = [nearbyCommand "33.4484" "112.0740" "5000"] :=
  ⟨rfl, rfl, by decide, by decide⟩

/-- C10 as stated fails: the interval 9223372037 is positive, but its duration
in nanoseconds wraps around to a negative `int64` and `time.NewTicker` panics
before the loop is entered. -/
theorem huge_interval_panics :
    ¬ ∀ (cfg : Config) (dial nearby : Reply), cfg.vers = false →
      stringsContains cfg.tile38AddressFlag ":" = true →
      stringsContains cfg.locationFlag "," = true →
      0 < cfg.intervalFlag → cfg.intervalFlag < 2 ^ 63 →
      dial = .ack → nearby = .ack →
      (startup cfg dial nearby).status = .running := by
  intro h
  have h2 := h ⟨false, 9223372037, "5000", "localhost:9851", "33.4484,112.0740", ""⟩
    .ack .ack rfl (by decide) (by decide) (by decide) (by decide) rfl rfl
  revert h2
  decide

/-- C10, amended: with the version flag off, an address containing `":"`, a
location containing `","`, any radius, a successful dial, an acknowledged
`NEARBY` command and an interval between 1 and 9223372036 seconds (or, more
generally, one whose duration in nanoseconds is positive after the `int64`
wrap-around), startup ends in the running loop and the process never exits
afterwards; the split location has at least two elements, so `loc[0]` and
`loc[1]` are in range. -/
theorem startup_succeeds (cfg : Config) (env : Env)
    (hv : cfg.vers = false)
    (haddr : stringsContains cfg.tile38AddressFlag ":" = true)
    (hloc : stringsContains cfg.locationFlag "," = true)
    (hint : (0 < cfg.intervalFlag ∧ cfg.intervalFlag ≤ 9223372036) ∨
      0 < tickerDuration cfg.intervalFlag)
    (hdial : env.dial = .ack)
    (hnearby : env.nearby = .ack) :
    (startup cfg env.dial env.nearby).status = .running ∧
    2 ≤ (stringsSplit cfg.locationFlag ",").length ∧
    ∀ n, (main cfg env).status ≠ .exited n := by
  have hpos : ¬ tickerDuration cfg.intervalFlag ≤ 0 := by
    rcases hint with ⟨h0, h1⟩ | h
    · rw [tickerDuration_of_range _ h0 h1]
      omega
    · omega
  obtain ⟨loc0, loc1, rest, _, hst⟩ := startup_registered cfg env.nearby hv haddr hloc
  rw [hnearby] at hst
  simp only [if_neg hpos] at hst
  have hrun : (startup cfg env.dial env.nearby).status = .running := by
    rw [hdial, hnearby, hst]
  exact ⟨hrun, two_le_length_stringsSplit _ hloc,
    fun n => runLoop_not_exited env.ticks _ hrun n⟩

/-- Witness of C10, amended: scenario A. -/
theorem startup_succeeds_witness :
    stringsContains "localhost:9851" ":" = true ∧
    stringsContains "33.4484,112.0740" "," = true ∧
    (startup scenarioA .ack .ack).status = .running ∧
    2 ≤ (stringsSplit "33.4484,112.0740" ",").length :=
  have h := startup_succeeds scenarioA ⟨.ack, .ack, []⟩ rfl (by decide) (by decide)
    (Or.inl (by decide)) rfl rfl
  ⟨by decide, by decide, h.1, h.2.1⟩

/-- C3 as stated fails: in `shoutingDocument` the position object has the
text `1` under the key `latitude` and `3` under `longitude`, yet the command
sent ends in `3 2`, because the later member `LATITUDE` is stored into the
same field. -/
theorem later_case_variant_wins :
    ¬ ∀ (r : Run) (t : Tick) (ms ps : List (String × JSON)) (x y : String)
        (q : Option issPosition),
      r.status = .running → t.fetch = .body (.ok (.obj ms)) →
      position t.fetch = .ok q →
      ("iss_position", JSON.obj ps) ∈ ms →
      ("latitude", JSON.str x) ∈ ps → ("longitude", JSON.str y) ∈ ps →
      commands (step r t).events
        = commands r.events ++ [["SET", "earth-orbit", "iss", "POINT", y, x]] := by
  intro h
  have h2 := h ⟨.running, [], []⟩ ⟨.body (.ok shoutingDocument), .ack⟩
    [("iss_position",
      .obj [("latitude", .str "1"), ("longitude", .str "3"), ("LATITUDE", .str "2")])]
    [("latitude", .str "1"), ("longitude", .str "3"), ("LATITUDE", .str "2")]
    "1" "3" (some ⟨"3", "2"⟩) rfl rfl rfl (by simp) (by simp) (by simp)
  revert h2
  decide

/-- C3, amended: for a tick of the running loop whose fetch succeeds with a
document in which exactly one member has a key matching `iss_position` (the
key itself or a case variant), an object, and in that object exactly one
member has a key matching `latitude`, with the text `x`, and exactly one a key
matching `longitude`, with the text `y`, the command sent for the tick is
`SET earth-orbit iss POINT y x`, whatever else the document holds. -/
theorem set_command_inverts_labels (r : Run) (t : Tick) (ms ps : List (String × JSON))
    (k k1 k2 x y : String) (q : Option issPosition)
    (hr : r.status = .running)
    (hdoc : t.fetch = .body (.ok (.obj ms)))
    (hok : position t.fetch = .ok q)
    (hpos : ms.filter (fun m => keyMatches "iss_position" m.1) = [(k, .obj ps)])
    (hlat : ps.filter (fun m => keyMatches "latitude" m.1) = [(k1, .str x)])
    (hlon : ps.filter (fun m => keyMatches "longitude" m.1) = [(k2, .str y)]) :
    commands (step r t).events
      = commands r.events ++ [["SET", "earth-orbit", "iss", "POINT", y, x]] ∧
    (step r t).status = .running := by
  have hq : q = some ⟨y, x⟩ :=
    position_of_unique_members ms ps k k1 k2 x y q hpos hlat hlon (hdoc ▸ hok)
  rw [hq] at hok
  obtain ⟨he, hs⟩ := step_pos_events r t ⟨y, x⟩ hr hok
  refine ⟨?_, hs⟩
  rw [he, commands_append, commands_append, commands_fetchEvents]
  simp [commands, setCommand]

/-- Witness of C3, amended: `sampleDocument`. -/
theorem set_command_inverts_labels_witness :
    position (.body (.ok sampleDocument)) = .ok (some ⟨"78.9012", "-12.3456"⟩) ∧
    commands (step ⟨.running, [], []⟩ ⟨.body (.ok sampleDocument), .ack⟩).events
      = commands [] ++ [["SET", "earth-orbit", "iss", "POINT", "78.9012", "-12.3456"]] ∧
    (step ⟨.running, [], []⟩ ⟨.body (.ok sampleDocument), .ack⟩).status = .running :=
  ⟨rfl,
    set_command_inverts_labels ⟨.running, [], []⟩ ⟨.body (.ok sampleDocument), .ack⟩
      [("message", .str "success"), ("timestamp", .num (some 1700000000)),
        ("iss_position", .obj [("longitude", .str "78.9012"), ("latitude", .str "-12.3456")])]
      [("longitude", .str "78.9012"), ("latitude", .str "-12.3456")]
      "iss_position" "latitude" "longitude" "-12.3456" "78.9012"
      (some ⟨"78.9012", "-12.3456"⟩) rfl rfl rfl rfl rfl rfl⟩

/-! ## Ticks that fail and ticks that return no position -/

/-- A tick whose request cannot be built: nothing goes over the network, the
error is printed and the loop stays as it was. -/
theorem step_requestError (r : Run) (err : String) (reply : Reply)
    (hr : r.status = .running) :
    step r ⟨.requestError err, reply⟩ = { r with output := r.output ++ [err] } := by
  rw [step_error r ⟨.requestError err, reply⟩ err hr rfl]
  simp [fetchEvents]

/-- A tick whose round trip fails: the GET was attempted, the error is
printed, no command is sent and the loop stays running. -/
theorem step_doError (r : Run) (err : String) (reply : Reply)
    (hr : r.status = .running) :
    step r ⟨.doError err, reply⟩
      = { r with events := r.events ++ [.httpGet positionURL],
                 output := r.output ++ [err] } := by
  rw [step_error r ⟨.doError err, reply⟩ err hr rfl]
  rfl

/-- A tick whose body is not a JSON value, or is a document that does not fit
the struct: the GET was attempted, the error is printed, no command is sent
and the loop stays running. -/
theorem step_undecodable (r : Run) (body : Except String JSON) (err : String)
    (reply : Reply) (hr : r.status = .running)
    (hbody : body = .error err ∨ ∃ doc, body = .ok doc ∧ decodeResponse doc = .error err) :
    step r ⟨.body body, reply⟩
      = { r with events := r.events ++ [.httpGet positionURL],
                 output := r.output ++ [err] } := by
  have hp : position (.body body) = .error err := by
    rcases hbody with h | ⟨doc, h, hd⟩
    · rw [h]
      rfl
    · rw [h]
      simp only [position, hd]
  rw [step_error r ⟨.body body, reply⟩ err hr hp]
  rfl

/-- After a tick whose fetch returned an error the next tick is handled by a
running loop: unless its own request cannot be built it performs the GET, and
it sends the `SET` command of the position it fetched, if any. -/
theorem step_after_error (r : Run) (t t2 : Tick) (err : String)
    (hr : r.status = .running) (herr : position t.fetch = .error err)
    (hreq : ∀ e, t2.fetch ≠ .requestError e) :
    (step r t).status = .running ∧
    commands (step r t).events = commands r.events ∧
    (step (step r t) t2).events
      = (step r t).events ++ [.httpGet positionURL]
          ++ (setOf t2).toList.map Event.command := by
  have s1 : (step r t).status = .running := by
    rw [step_error r t err hr herr]
    exact hr
  have hget : fetchEvents t2.fetch = [.httpGet positionURL] := by
    cases hf : t2.fetch with
    | requestError e => exact absurd hf (hreq e)
    | doError e => rfl
    | body b => rfl
  refine ⟨s1, ?_, ?_⟩
  · rw [step_commands r t hr]
    simp [setOf, herr]
  · rcases hp : position t2.fetch with e | (_ | p)
    · rw [step_error _ t2 e s1 hp]
      simp [setOf, hp, hget]
    · rw [step_nil _ t2 s1 hp]
      simp [setOf, hp, hget]
    · rw [(step_pos_events _ t2 p s1 hp).1]
      simp [setOf, hp, hget]

/-- Runs from the same state over ticks with the same fetch outcomes perform
the same network actions and end in the same status, whatever the store
replied to the `SET` commands in either. -/
theorem runLoop_reply_irrelevant (r : Run) (ts1 ts2 : List Tick)
    (hf : ts1.map (fun t => t.fetch) = ts2.map (fun t => t.fetch)) :
    (runLoop r ts1).events = (runLoop r ts2).events ∧
    (runLoop r ts1).status = (runLoop r ts2).status := by
  obtain ⟨hs, he⟩ := runLoop_sim ts1 ts2 hf r r [] rfl rfl
  exact ⟨by simpa using he, hs⟩

/-- C4 fails on the code: over the ticks network error, reply without
`iss_position`, ordinary reply, the error tick is skipped as claimed (its GET
is attempted, no command is sent, the loop runs on), but the second fetch
succeeds with a nil pointer and the loop panics on it, so the run sends no
`SET` command at all although the fetches of the second and third tick
succeed. -/
theorem set_trace_stops_at_nil_fetch :
    position (.doError "timeout") = .error "timeout" ∧
    position (.body (.ok emptyDocument)) = .ok none ∧
    position (.body (.ok sampleDocument)) = .ok (some ⟨"78.9012", "-12.3456"⟩) ∧
    (main scenarioA ⟨.ack, .ack, [⟨.doError "timeout", .ack⟩]⟩).status = .running ∧
    (main scenarioA ⟨.ack, .ack,
        [⟨.doError "timeout", .ack⟩, ⟨.body (.ok sampleDocument), .ack⟩]⟩).events
      = [.dial "tcp" "localhost:9851",
          .command ["NEARBY", "earth-orbit", "FENCE", "DETECT", "enter", "POINT",
            "33.4484", "112.0740", "5000"],
          .httpGet "http://api.open-notify.org/iss-now.json",
          .httpGet "http://api.open-notify.org/iss-now.json",
          .command ["SET", "earth-orbit", "iss", "POINT", "78.9012", "-12.3456"]] ∧
    (main scenarioA ⟨.ack, .ack,
        [⟨.doError "timeout", .ack⟩, ⟨.body (.ok emptyDocument), .ack⟩,
          ⟨.body (.ok sampleDocument), .ack⟩]⟩).events
      = [.dial "tcp" "localhost:9851",
          .command ["NEARBY", "earth-orbit", "FENCE", "DETECT", "enter", "POINT",
            "33.4484", "112.0740", "5000"],
          .httpGet "http://api.open-notify.org/iss-now.json",
          .httpGet "http://api.open-notify.org/iss-now.json"] ∧
    (main scenarioA ⟨.ack, .ack,
        [⟨.doError "timeout", .ack⟩, ⟨.body (.ok emptyDocument), .ack⟩,
          ⟨.body (.ok sampleDocument), .ack⟩]⟩).status
      = .panicked "invalid memory address or nil pointer dereference" :=
  ⟨rfl, rfl, rfl, by decide, by decide, by decide, by decide⟩

/-- C5 fails on the code: after a single tick whose reply has no
`iss_position` the loop is not running any more, whether the store would
acknowledge or reject a `SET`; the two runs agree with each other, but both
have ended in a panic. -/
theorem nil_fetch_stops_loop_under_any_reply :
    (runLoop ⟨.running, [], []⟩ [⟨.body (.ok emptyDocument), .ack⟩]).status
      = .panicked "invalid memory address or nil pointer dereference" ∧
    (runLoop ⟨.running, [], []⟩ [⟨.body (.ok emptyDocument), .error "ERR"⟩]).status
      = .panicked "invalid memory address or nil pointer dereference" ∧
    (runLoop ⟨.running, [], []⟩ [⟨.body (.ok emptyDocument), .ack⟩]).events
      = [.httpGet "http://api.open-notify.org/iss-now.json"] ∧
    (runLoop ⟨.running, [], []⟩
        [⟨.body (.ok sampleDocument), .error "ERR"⟩,
          ⟨.body (.ok sampleDocument), .ack⟩]).events
      = [.httpGet "http://api.open-notify.org/iss-now.json",
          .command ["SET", "earth-orbit", "iss", "POINT", "78.9012", "-12.3456"],
          .httpGet "http://api.open-notify.org/iss-now.json",
          .command ["SET", "earth-orbit", "iss", "POINT", "78.9012", "-12.3456"]] ∧
    (runLoop ⟨.running, [], []⟩
        [⟨.body (.ok sampleDocument), .error "ERR"⟩,
          ⟨.body (.ok sampleDocument), .ack⟩]).status = .running :=
  ⟨by decide, by decide, by decide, by decide, by decide⟩

end HeadsUp
